import Mathlib

/-!
Verification of the VRAM coordination subsystem of `silly_media`
(`src/silly_media/vram_manager.py`).

The coordinator (`VRAMManager`) arbitrates exclusive access to a single GPU
across a registry of heterogeneous model wrappers.  Each wrapper satisfies the
`Loadable` protocol: `load()`, `unload()`, `is_loaded`.  This development
shallowly embeds the coordinator's state and operations:

* `Instance` models an opaque `Loadable` collaborator as a deterministic test
  double: an `isLoaded` flag, call counters for `load`/`unload`, and two
  behaviour flags saying whether the corresponding call raises (the model
  wrappers live outside the coordinator; the coordinator treats them as
  opaque, so quantifying over these behaviours captures every collaborator).
* `ModelInfo` mirrors the dataclass of the same name.
* `VRAMManager` mirrors the mutable coordinator state: the registry dict
  (an insertion-ordered list with unique keys, as a Python dict), the
  `_current_loaded` resident name, `_in_use` busy flag, `_last_used`
  timestamp and `_idle_timeout`.
* Python exceptions are modelled with `PyErr`; a fallible operation returns
  the post-state (Python mutates in place, so state changes made before a
  raise persist) together with an `Option PyErr` / `Except PyErr` result.
* The asyncio lock is modelled separately as a small labelled transition
  system (`GateSys`), since it orders whole sessions rather than acting on
  the coordinator's data state.
* Timestamps (`time.time()` floats) are modelled as rationals; the idle
  timeout is an `int` as in the source.
-/

namespace SillyMedia

/-- Python exceptions raised by the modelled code paths. -/
inductive PyErr where
  | valueError (msg : String)
  | runtimeError (msg : String)
deriving DecidableEq, Repr

/-- Behavioural model of one `Loadable` model wrapper (external collaborator).
`loadFailsFlag` / `unloadFailsFlag` say whether `load()` / `unload()` raises
when called; the counters record how many times each was called. -/
structure Instance where
  isLoaded : Bool
  loadCount : Nat
  unloadCount : Nat
  loadFailsFlag : Bool
  unloadFailsFlag : Bool
deriving DecidableEq, Repr

/-- One call to the wrapper's `load()`: counts the call, then either raises
(per the behaviour flag) or marks the wrapper loaded. -/
def Instance.doLoad (i : Instance) : Instance × Option PyErr :=
  if i.loadFailsFlag then
    ({ i with loadCount := i.loadCount + 1 }, some (.runtimeError "load failed"))
  else
    ({ i with loadCount := i.loadCount + 1, isLoaded := true }, none)

/-- One call to the wrapper's `unload()`: counts the call, then either raises
(leaving the wrapper stuck loaded) or marks it unloaded. -/
def Instance.doUnload (i : Instance) : Instance × Option PyErr :=
  if i.unloadFailsFlag then
    ({ i with unloadCount := i.unloadCount + 1 }, some (.runtimeError "unload failed"))
  else
    ({ i with unloadCount := i.unloadCount + 1, isLoaded := false }, none)

/-- `ModelType` enum of `vram_manager.py`. -/
inductive ModelType where
  | image | audio | video | vision | img2img | llm | music
deriving DecidableEq, Repr

/-- `ModelInfo` dataclass: metadata about a registered model. -/
structure ModelInfo where
  name : String
  modelType : ModelType
  estimatedVramGb : ℚ
  inst : Instance
deriving DecidableEq, Repr

/-- The `is_loaded` property of `ModelInfo`, delegating to the instance. -/
def ModelInfo.isLoaded (i : ModelInfo) : Bool := i.inst.isLoaded

/-- Mutable coordinator state of `VRAMManager`.  `models` is the `_models`
dict as an insertion-ordered association list; `currentLoaded`, `lastUsed`,
`idleTimeout` and `inUse` mirror `_current_loaded`, `_last_used`,
`_idle_timeout` and `_in_use`. -/
structure VRAMManager where
  models : List ModelInfo
  currentLoaded : Option String
  lastUsed : ℚ
  idleTimeout : Int
  inUse : Bool
deriving DecidableEq, Repr

/-- Fresh coordinator state as built by `__init__`. -/
def VRAMManager.init : VRAMManager :=
  { models := [], currentLoaded := none, lastUsed := 0, idleTimeout := 300, inUse := false }

/-- The `VRAM_ESTIMATES` table of per-name default VRAM estimates (GB). -/
def VRAM_ESTIMATES : List (String × ℚ) :=
  [("z-image", 22), ("z-image-turbo", 22), ("ovis-image-7b", 20),
   ("qwen-image-2512", 15), ("xtts-v2", 2), ("demucs", 2), ("maya", 16),
   ("qwen3-vl-8b", 18), ("qwen-image-edit", 20), ("huihui-qwen3-4b", 10),
   ("ace-step-turbo", 8), ("ace-step-sft", 8)]

/-- `register`: `vram = estimated_vram_gb or VRAM_ESTIMATES.get(name, 10.0)`
(Python `or`: `None` and `0.0` are falsy), then `self._models[name] = info`
(dict assignment: replace in place if the key exists, else append). -/
def VRAMManager.register (m : VRAMManager) (name : String) (ty : ModelType)
    (inst : Instance) (estimatedVramGb : Option ℚ) : VRAMManager :=
  let vram : ℚ :=
    match estimatedVramGb with
    | none => ((VRAM_ESTIMATES.lookup name).getD 10)
    | some v => if v = 0 then ((VRAM_ESTIMATES.lookup name).getD 10) else v
  let info : ModelInfo := { name := name, modelType := ty, estimatedVramGb := vram, inst := inst }
  if m.models.any (fun i => i.name == name) then
    { m with models := m.models.map (fun i => if i.name == name then info else i) }
  else
    { m with models := m.models ++ [info] }

/-- The unload loop of `_unload_all` (lines 188-194): walk the dict in order,
call `unload()` on each loaded model.  There is no try/except around the
call, so the first raising `unload()` propagates, leaving the remaining
entries untouched. -/
def unloadSweep : List ModelInfo → List ModelInfo × Option PyErr
  | [] => ([], none)
  | info :: rest =>
    if info.inst.isLoaded then
      let r := info.inst.doUnload
      match r.2 with
      | some err => ({ info with inst := r.1 } :: rest, some err)
      | none =>
        let tail := unloadSweep rest
        ({ info with inst := r.1 } :: tail.1, tail.2)
    else
      let tail := unloadSweep rest
      (info :: tail.1, tail.2)

/-- `_unload_all`: if no model is loaded, return at once (without clearing
`_current_loaded`); otherwise run the unload loop and, if it completes
without raising, set `_current_loaded = None`. -/
def VRAMManager.unloadAll (m : VRAMManager) : VRAMManager × Option PyErr :=
  let loadedModels := (m.models.filter (fun i => i.inst.isLoaded)).map (fun i => i.name)
  if loadedModels.isEmpty then (m, none)
  else
    let r := unloadSweep m.models
    match r.2 with
    | some err => ({ m with models := r.1 }, some err)
    | none => ({ m with models := r.1, currentLoaded := none }, none)

/-- `_ensure_loaded`: raise `ValueError` for an unknown name; return at once
when the target is loaded and is the recorded resident; otherwise unload
everything, clear VRAM (no effect on the modelled state), call `load()` on
the target, and record it as resident only after `load()` returns. -/
def VRAMManager.ensureLoaded (m : VRAMManager) (name : String) :
    VRAMManager × Except PyErr String :=
  match m.models.find? (fun i => i.name == name) with
  | none => (m, .error (.valueError ("Unknown model: " ++ name)))
  | some modelInfo =>
    if modelInfo.inst.isLoaded && (m.currentLoaded == some name) then
      (m, .ok name)
    else
      let p := m.unloadAll
      match p.2 with
      | some err => (p.1, .error err)
      | none =>
        match p.1.models.find? (fun i => i.name == name) with
        | none => (p.1, .error (.valueError ("Unknown model: " ++ name)))
        | some info1 =>
          let q := info1.inst.doLoad
          let m2 := { p.1 with
            models := p.1.models.map (fun i =>
              if i.name == name then { i with inst := q.1 } else i) }
          match q.2 with
          | some err => (m2, .error err)
          | none => ({ m2 with currentLoaded := some name }, .ok name)

/-- Entry half of `acquire_gpu`, run while holding the lock: set
`_in_use = True`, `_touch()` (refresh `_last_used` to the current time), then
`_ensure_loaded`.  If `_ensure_loaded` raises, the exception propagates out
of the `async with` (releasing the lock) *before* the try/finally around the
yield is entered, so `_in_use` stays `True` on that path. -/
def VRAMManager.acquireEnter (m : VRAMManager) (name : String) (now : ℚ) :
    VRAMManager × Except PyErr String :=
  let m1 := { m with inUse := true, lastUsed := now }
  m1.ensureLoaded name

/-- Exit half of `acquire_gpu` (the `finally` block after the yield): set
`_in_use = False` and `_touch()` again. -/
def VRAMManager.acquireExit (m : VRAMManager) (now : ℚ) : VRAMManager :=
  { m with inUse := false, lastUsed := now }

/-- A whole `acquire_gpu` session: enter, run the caller's body (which may
raise `bodyErr` — the body works on the yielded model, not on the coordinator
state), then the `finally` block; an exception from the body propagates
unchanged after the `finally` runs. -/
def VRAMManager.acquireRun (m : VRAMManager) (name : String) (now nowEnd : ℚ)
    (bodyErr : Option PyErr) : VRAMManager × Except PyErr String :=
  match m.acquireEnter name now with
  | (m1, .error e) => (m1, .error e)
  | (m1, .ok u) =>
    let m2 := m1.acquireExit nowEnd
    match bodyErr with
    | some e => (m2, .error e)
    | none => (m2, .ok u)

/-- `get_loaded_models`. -/
def VRAMManager.getLoadedModels (m : VRAMManager) : List String :=
  (m.models.filter (fun i => i.inst.isLoaded)).map (fun i => i.name)

/-- What one iteration of the `while True` loop in `_idle_check` decides. -/
inductive IdleStep where
  /-- Timeout reached but `_in_use`: reset `_last_used`, sleep a full
  `idle_timeout`, and loop again. -/
  | deferBusy (sleepFor : ℚ)
  /-- Timeout reached, not busy, models were loaded: sweep ran under the
  lock and the task returned. -/
  | fired
  /-- Timeout reached, not busy, nothing loaded: task returned untouched. -/
  | firedNothing
  /-- Timeout not reached: sleep the remaining duration and loop again. -/
  | sleepThenRecheck (remaining : ℚ)
  /-- The eviction sweep raised inside the task. -/
  | taskError (e : PyErr)
deriving DecidableEq, Repr

/-- One iteration of the `_idle_check` loop at wall-clock time `now`:
compute `remaining = idle_timeout - (now - last_used)`; if it is ≤ 0 and the
GPU is in use, defer (reset `_last_used := now`, sleep a full timeout);
if ≤ 0 and idle, unload everything under the lock and return; otherwise
sleep the remaining time and re-check. -/
def VRAMManager.idleCheckStep (m : VRAMManager) (now : ℚ) : VRAMManager × IdleStep :=
  let elapsed : ℚ := now - m.lastUsed
  let remaining : ℚ := (m.idleTimeout : ℚ) - elapsed
  if remaining ≤ 0 then
    if m.inUse then
      ({ m with lastUsed := now }, .deferBusy (m.idleTimeout : ℚ))
    else
      if m.getLoadedModels.isEmpty then (m, .firedNothing)
      else
        let r := m.unloadAll
        match r.2 with
        | some e => (r.1, .taskError e)
        | none => (r.1, .fired)
  else
    (m, .sleepThenRecheck remaining)

/-- Looks up the `is_loaded` report of the unit registered under `nm`. -/
def lookupIsLoaded (m : VRAMManager) (nm : String) : Option Bool :=
  (m.models.find? (fun i => i.name == nm)).map (fun i => i.inst.isLoaded)

/-- Looks up the `load()` call count of the unit registered under `nm`. -/
def lookupLoadCount (m : VRAMManager) (nm : String) : Option Nat :=
  (m.models.find? (fun i => i.name == nm)).map (fun i => i.inst.loadCount)

/-- The central residency invariant (spec §3): at most one registered unit
reports `is_loaded = true`, and if `resident` is set then the unit of that
name reports loaded and no other unit does. -/
def residencyOk (m : VRAMManager) : Bool :=
  (m.models.all fun i => m.models.all fun j =>
    !i.inst.isLoaded || !j.inst.isLoaded || i.name == j.name) &&
  (match m.currentLoaded with
   | none => true
   | some nm =>
     (m.models.any fun i => i.name == nm && i.inst.isLoaded) &&
     (m.models.all fun j => !j.inst.isLoaded || j.name == nm))

/-! ### The gate: `async with self._lock` as a transition system

`acquire_gpu` wraps the whole session — eviction sweep, `load()`, and the
yielded inference scope — in `async with self._lock`, a single
`asyncio.Lock`.  The lock is modelled as a labelled transition system over
`n` logical sessions: a session is `busy` exactly while it holds the lock
(the Busy/Evicting states of the coordinator state machine), and the lock
admits a holder only when free. -/

/-- Lifecycle phase of one logical `acquire_gpu` session. -/
inductive Phase where
  | waiting | busy | finished
deriving DecidableEq, Repr

/-- State of the gate and of `n` logical sessions contending for it. -/
structure GateSys (n : Nat) where
  holder : Option (Fin n)
  phase : Fin n → Phase

/-- All sessions waiting, lock free. -/
def GateSys.start (n : Nat) : GateSys n :=
  { holder := none, phase := fun _ => Phase.waiting }

/-- Transitions of the gate: `takeGate` is the `async with self._lock` entry
(only when no one holds the lock), `releaseGate` is its exit. -/
inductive GateStep {n : Nat} : GateSys n → GateSys n → Prop
  | takeGate (s : GateSys n) (i : Fin n)
      (hfree : s.holder = none) (hw : s.phase i = Phase.waiting) :
      GateStep s ⟨some i, fun j => if j = i then Phase.busy else s.phase j⟩
  | releaseGate (s : GateSys n) (i : Fin n)
      (hold : s.holder = some i) :
      GateStep s ⟨none, fun j => if j = i then Phase.finished else s.phase j⟩

/-- States reachable from the all-waiting initial state. -/
inductive GateReachable {n : Nat} : GateSys n → Prop
  | start : GateReachable (GateSys.start n)
  | step {s t : GateSys n} : GateReachable s → GateStep s t → GateReachable t

/-- Invariant: a busy session is the lock holder. -/
def busyHoldsGate {n : Nat} (s : GateSys n) : Prop :=
  ∀ i, s.phase i = Phase.busy → s.holder = some i

/-- A two-session gate state in which session 0 has just taken the gate. -/
def gateDemo : GateSys 2 :=
  ⟨some 0, fun j => if j = 0 then Phase.busy else (GateSys.start 2).phase j⟩

/-! ### Concrete example states used by the witnesses -/

/-- A well-behaved wrapper that is not yet loaded. -/
def coldUnit : Instance :=
  { isLoaded := false, loadCount := 0, unloadCount := 0,
    loadFailsFlag := false, unloadFailsFlag := false }

/-- A wrapper that is loaded and whose `unload()` raises. -/
def stuckUnit : Instance :=
  { isLoaded := true, loadCount := 0, unloadCount := 0,
    loadFailsFlag := false, unloadFailsFlag := true }

/-- A wrapper whose `load()` raises. -/
def brokenUnit : Instance :=
  { isLoaded := false, loadCount := 0, unloadCount := 0,
    loadFailsFlag := true, unloadFailsFlag := false }

/-- A fresh coordinator with two well-behaved registered units. -/
def twoUnitMgr : VRAMManager :=
  (VRAMManager.init.register "alpha" ModelType.image coldUnit none).register
    "beta" ModelType.audio coldUnit none

/-- A coordinator in which resident unit `alpha` has a raising `unload()`. -/
def stuckMgr : VRAMManager :=
  { (VRAMManager.init.register "alpha" ModelType.image stuckUnit none).register
      "beta" ModelType.audio coldUnit none
    with currentLoaded := some "alpha" }

/-- A fresh coordinator whose only unit has a raising `load()`. -/
def brokenMgr : VRAMManager :=
  VRAMManager.init.register "alpha" ModelType.image brokenUnit none

/-! ### Lemmas about the eviction sweep -/

theorem unloadSweep_names (l : List ModelInfo) :
    ((unloadSweep l).1).map (fun i => i.name) = l.map (fun i => i.name) := by
  induction l with
  | nil => rfl
  | cons a l ih =>
    by_cases ha : a.inst.isLoaded <;> by_cases hf : a.inst.unloadFailsFlag <;>
      simp [unloadSweep, Instance.doUnload, ha, hf, ih]

theorem unloadSweep_ok_unloaded (l : List ModelInfo) (h : (unloadSweep l).2 = none) :
    ∀ i ∈ (unloadSweep l).1, i.inst.isLoaded = false := by
  induction l with
  | nil => simp [unloadSweep]
  | cons a l ih =>
    by_cases ha : a.inst.isLoaded <;> by_cases hf : a.inst.unloadFailsFlag <;>
      simp only [unloadSweep, Instance.doUnload, ha, hf, if_true, if_false,
        Bool.false_eq_true] at h ⊢ <;>
      simp_all [List.mem_cons]

theorem unloadSweep_ok_of_no_stuck (l : List ModelInfo)
    (h : ∀ j ∈ l, j.inst.unloadFailsFlag = false) :
    (unloadSweep l).2 = none := by
  induction l with
  | nil => rfl
  | cons a l ih =>
    have ha' := h a (List.mem_cons_self a l)
    by_cases ha : a.inst.isLoaded <;>
      simp [unloadSweep, Instance.doUnload, ha, ha',
        ih (fun j hj => h j (List.mem_cons_of_mem a hj))]

theorem unloadSweep_err_of_stuck (l : List ModelInfo) (w : ModelInfo)
    (hw : w ∈ l) (hwl : w.inst.isLoaded = true) (hwf : w.inst.unloadFailsFlag = true) :
    ∃ e, (unloadSweep l).2 = some e := by
  induction l with
  | nil => cases hw
  | cons a l ih =>
    rcases List.mem_cons.mp hw with rfl | hw'
    · by_cases hf : w.inst.unloadFailsFlag
      · simp [unloadSweep, Instance.doUnload, hwl, hf]
      · exact absurd hwf hf
    · by_cases ha : a.inst.isLoaded <;> by_cases hf : a.inst.unloadFailsFlag <;>
        simp [unloadSweep, Instance.doUnload, ha, hf, ih hw']

theorem unloadSweep_find?_loadCount (l : List ModelInfo) (nm : String) :
    (((unloadSweep l).1).find? (fun i => i.name == nm)).map (fun i => i.inst.loadCount)
      = (l.find? (fun i => i.name == nm)).map (fun i => i.inst.loadCount) := by
  induction l with
  | nil => rfl
  | cons a l ih =>
    by_cases hn : a.name == nm <;>
      by_cases ha : a.inst.isLoaded <;> by_cases hf : a.inst.unloadFailsFlag <;>
      simp [unloadSweep, Instance.doUnload, ha, hf, List.find?_cons, hn, ih]

theorem unloadSweep_find?_flags (l : List ModelInfo) (nm : String) :
    (((unloadSweep l).1).find? (fun i => i.name == nm)).map
        (fun i => (i.inst.loadCount, i.inst.loadFailsFlag))
      = (l.find? (fun i => i.name == nm)).map
        (fun i => (i.inst.loadCount, i.inst.loadFailsFlag)) := by
  induction l with
  | nil => rfl
  | cons a l ih =>
    by_cases hn : a.name == nm <;>
      by_cases ha : a.inst.isLoaded <;> by_cases hf : a.inst.unloadFailsFlag <;>
      simp [unloadSweep, Instance.doUnload, ha, hf, List.find?_cons, hn, ih]

/-! ### Lemmas about `_unload_all` -/

theorem unloadAll_names (m : VRAMManager) :
    ((m.unloadAll).1).models.map (fun i => i.name) = m.models.map (fun i => i.name) := by
  unfold VRAMManager.unloadAll
  by_cases he : ((m.models.filter fun i => i.inst.isLoaded).map (fun i => i.name)).isEmpty
  · simp [he]
  · cases hs : (unloadSweep m.models).2 <;> simp [he, hs, unloadSweep_names]

theorem unloadAll_ok_of_no_stuck (m : VRAMManager)
    (h : ∀ j ∈ m.models, j.inst.unloadFailsFlag = false) :
    (m.unloadAll).2 = none := by
  unfold VRAMManager.unloadAll
  by_cases he : ((m.models.filter fun i => i.inst.isLoaded).map (fun i => i.name)).isEmpty
  · simp [he]
  · have hs := unloadSweep_ok_of_no_stuck m.models h
    simp [he, hs]

theorem unloadAll_ok_unloaded (m : VRAMManager) (h : (m.unloadAll).2 = none) :
    ∀ i ∈ (m.unloadAll).1.models, i.inst.isLoaded = false := by
  unfold VRAMManager.unloadAll at *
  by_cases he : ((m.models.filter fun i => i.inst.isLoaded).map (fun i => i.name)).isEmpty
  · simp only [he, if_true]
    intro i hi
    have hnil : m.models.filter (fun i => i.inst.isLoaded) = [] := by
      simpa using he
    have := List.filter_eq_nil_iff.mp hnil i hi
    simpa using this
  · cases hs : (unloadSweep m.models).2 with
    | none =>
      simp only [he, if_false, hs]
      exact fun i hi => unloadSweep_ok_unloaded _ hs i hi
    | some e => simp [he, hs] at h

theorem unloadAll_ok_current (m : VRAMManager) (hinv : residencyOk m = true)
    (h : (m.unloadAll).2 = none) : (m.unloadAll).1.currentLoaded = none := by
  unfold VRAMManager.unloadAll at *
  by_cases he : ((m.models.filter fun i => i.inst.isLoaded).map (fun i => i.name)).isEmpty
  · simp only [he, if_true]
    cases hc : m.currentLoaded with
    | none => rfl
    | some nm =>
      exfalso
      simp only [residencyOk, hc, Bool.and_eq_true, List.any_eq_true] at hinv
      obtain ⟨⟨x, hx, -, hxl⟩, -⟩ := hinv.2
      have hnil : m.models.filter (fun i => i.inst.isLoaded) = [] := by
        simpa using he
      have := List.filter_eq_nil_iff.mp hnil x hx
      simp [hxl] at this
  · cases hs : (unloadSweep m.models).2 with
    | none => simp [he, hs]
    | some e => simp [he, hs] at h

theorem unloadAll_err_state (m : VRAMManager) (e : PyErr) (h : (m.unloadAll).2 = some e) :
    (m.unloadAll).1.currentLoaded = m.currentLoaded ∧
    (∀ nm, (((m.unloadAll).1.models).find? (fun i => i.name == nm)).map
        (fun i => (i.inst.loadCount, i.inst.loadFailsFlag))
      = (m.models.find? (fun i => i.name == nm)).map
        (fun i => (i.inst.loadCount, i.inst.loadFailsFlag))) := by
  unfold VRAMManager.unloadAll at *
  by_cases he : ((m.models.filter fun i => i.inst.isLoaded).map (fun i => i.name)).isEmpty
  · simp [he] at h
  · cases hs : (unloadSweep m.models).2 with
    | none => simp [he, hs] at h
    | some e' => simp [he, hs, unloadSweep_find?_flags]

theorem unloadAll_err_of_stuck (m : VRAMManager) (w : ModelInfo)
    (hw : w ∈ m.models) (hwl : w.inst.isLoaded = true)
    (hwf : w.inst.unloadFailsFlag = true) :
    ∃ e, (m.unloadAll).2 = some e := by
  unfold VRAMManager.unloadAll
  have he : ((m.models.filter fun i => i.inst.isLoaded).map (fun i => i.name)).isEmpty = false := by
    have : w ∈ m.models.filter (fun i => i.inst.isLoaded) :=
      List.mem_filter.mpr ⟨hw, hwl⟩
    rcases hq : m.models.filter (fun i => i.inst.isLoaded) with - | ⟨a, l⟩
    · rw [hq] at this; cases this
    · simp [hq]
  obtain ⟨e, hs⟩ := unloadSweep_err_of_stuck m.models w hw hwl hwf
  exact ⟨e, by simp [he, hs]⟩

/-! ### Lemmas about `_ensure_loaded` -/

theorem unloadAll_find?_flags (m : VRAMManager) (nm : String) :
    (((m.unloadAll).1.models).find? (fun i => i.name == nm)).map
        (fun i => (i.inst.loadCount, i.inst.loadFailsFlag))
      = (m.models.find? (fun i => i.name == nm)).map
        (fun i => (i.inst.loadCount, i.inst.loadFailsFlag)) := by
  unfold VRAMManager.unloadAll
  by_cases he : ((m.models.filter fun i => i.inst.isLoaded).map (fun i => i.name)).isEmpty
  · simp [he]
  · cases hs : (unloadSweep m.models).2 <;> simp [he, hs, unloadSweep_find?_flags]

theorem ensureLoaded_unknown (m : VRAMManager) (nm : String)
    (h : m.models.find? (fun i => i.name == nm) = none) :
    m.ensureLoaded nm = (m, .error (.valueError ("Unknown model: " ++ nm))) := by
  unfold VRAMManager.ensureLoaded
  rw [h]

theorem ensureLoaded_fast (m : VRAMManager) (nm : String) (i : ModelInfo)
    (hfind : m.models.find? (fun j => j.name == nm) = some i)
    (hl : i.inst.isLoaded = true) (hc : m.currentLoaded = some nm) :
    m.ensureLoaded nm = (m, .ok nm) := by
  unfold VRAMManager.ensureLoaded
  rw [hfind]
  simp [hl, hc]

theorem find?_map_of_name_eq (l : List ModelInfo) (f : ModelInfo → ModelInfo)
    (hf : ∀ i, (f i).name = i.name) (nm : String) :
    (l.map f).find? (fun j => j.name == nm) = (l.find? (fun j => j.name == nm)).map f := by
  induction l with
  | nil => rfl
  | cons a l ih =>
    rw [List.map_cons, List.find?_cons, List.find?_cons, hf a]
    cases hn : (a.name == nm) with
    | true => rfl
    | false => exact ih

theorem find?_name_of_mem (l : List ModelInfo) (nm : String)
    (h : nm ∈ l.map (fun i => i.name)) :
    ∃ i, l.find? (fun j => j.name == nm) = some i ∧ i.name = nm := by
  have hs : (l.find? (fun j => j.name == nm)).isSome := by
    rw [List.find?_isSome]
    obtain ⟨i, hi, hn⟩ := List.mem_map.mp h
    exact ⟨i, hi, by simp [beq_iff_eq, hn]⟩
  cases hf : l.find? (fun j => j.name == nm) with
  | none => rw [hf] at hs; cases hs
  | some i =>
    refine ⟨i, rfl, ?_⟩
    have := List.find?_some hf
    simpa [beq_iff_eq] using this

theorem ensureLoaded_ok_cases (m : VRAMManager) (nm : String) (m1 : VRAMManager) (u : String)
    (h : m.ensureLoaded nm = (m1, .ok u)) :
    u = nm ∧ m1.currentLoaded = some nm ∧
    (∃ i, m.models.find? (fun j => j.name == nm) = some i) ∧
    m1.models.map (fun i => i.name) = m.models.map (fun i => i.name) ∧
    ((m1 = m ∧ ∃ i, m.models.find? (fun j => j.name == nm) = some i ∧
        i.inst.isLoaded = true ∧ m.currentLoaded = some nm)
     ∨ ((∀ i ∈ m1.models, i.inst.isLoaded = (i.name == nm)) ∧
        lookupLoadCount m1 nm = (lookupLoadCount m nm).map (fun c => c + 1))) := by
  simp only [VRAMManager.ensureLoaded] at h
  split at h
  · simp at h
  · rename_i i hfind
    split at h
    · rename_i hcond
      rw [Prod.mk.injEq] at h
      obtain ⟨rfl, hok⟩ := h
      simp only [Except.ok.injEq] at hok
      subst hok
      simp only [Bool.and_eq_true, beq_iff_eq] at hcond
      exact ⟨rfl, hcond.2, ⟨i, hfind⟩, rfl, Or.inl ⟨rfl, i, hfind, hcond.1, hcond.2⟩⟩
    · rename_i hcond
      split at h
      · simp at h
      · rename_i hswp
        split at h
        · simp at h
        · rename_i i1 hfind1
          split at h
          · simp at h
          · rename_i hload
            rw [Prod.mk.injEq] at h
            obtain ⟨hm1, hok⟩ := h
            simp only [Except.ok.injEq] at hok
            subst hok
            subst hm1
            refine ⟨rfl, rfl, ⟨i, hfind⟩, ?_, Or.inr ⟨?_, ?_⟩⟩
            · rw [List.map_map]
              have : ∀ j : ModelInfo,
                  ((fun i => i.name) ∘ fun i =>
                    if (i.name == nm) = true then { i with inst := (i1.inst.doLoad).1 } else i) j
                  = j.name := by
                intro j
                by_cases hj : j.name = nm <;> simp [beq_iff_eq, hj]
              rw [List.map_congr_left (fun a _ => this a)]
              exact unloadAll_names m
            · intro x hx
              obtain ⟨j, hj, rfl⟩ := List.mem_map.mp hx
              have hjun : j.inst.isLoaded = false :=
                unloadAll_ok_unloaded m hswp j hj
              by_cases hn : (j.name == nm) = true
              · have hq : ((i1.inst.doLoad).2 = none) := hload
                have : (i1.inst.doLoad).1.isLoaded = true := by
                  unfold Instance.doLoad at hq ⊢
                  by_cases hf : i1.inst.loadFailsFlag <;> simp [hf] at hq ⊢
                simp [hn, this]
              · simp [hn, hjun]
            · have hfname : ∀ j : ModelInfo,
                  ((fun i => if (i.name == nm) = true
                      then { i with inst := (i1.inst.doLoad).1 } else i) j).name = j.name := by
                intro j
                by_cases hj : j.name = nm <;> simp [beq_iff_eq, hj]
              have hmapfind := find?_map_of_name_eq (m.unloadAll).1.models _ hfname nm
              rw [hfind1] at hmapfind
              have hi1nm : (i1.name == nm) = true := by
                have h' := List.find?_some hfind1
                exact h'
              have hflags := unloadAll_find?_flags m nm
              rw [hfind1] at hflags
              unfold lookupLoadCount
              dsimp only
              rw [hmapfind]
              cases hfind0 : m.models.find? (fun j => j.name == nm) with
              | none => rw [hfind0] at hflags; simp at hflags
              | some i0 =>
                rw [hfind0] at hflags
                simp only [Option.map_some', Option.some.injEq, Prod.mk.injEq] at hflags
                have hcnt : (i1.inst.doLoad).1.loadCount = i0.inst.loadCount + 1 := by
                  unfold Instance.doLoad
                  by_cases hfl : i1.inst.loadFailsFlag <;> simp [hfl, hflags.1]
                have hi1nm' : i1.name = nm := by simpa [beq_iff_eq] using hi1nm
                simp [hi1nm', hcnt]

theorem ensureLoaded_load_failure (m : VRAMManager) (nm : String) (i : ModelInfo)
    (hinv : residencyOk m = true)
    (hfind : m.models.find? (fun j => j.name == nm) = some i)
    (hslow : (i.inst.isLoaded && (m.currentLoaded == some nm)) = false)
    (hlf : i.inst.loadFailsFlag = true)
    (hnostuck : ∀ j ∈ m.models, j.inst.unloadFailsFlag = false) :
    (m.ensureLoaded nm).2 = .error (.runtimeError "load failed") ∧
    (m.ensureLoaded nm).1.currentLoaded = none ∧
    (∀ j ∈ (m.ensureLoaded nm).1.models, j.inst.isLoaded = false) := by
  have hswp : (m.unloadAll).2 = none := unloadAll_ok_of_no_stuck m hnostuck
  have hflags := unloadAll_find?_flags m nm
  rw [hfind] at hflags
  cases hfind1 : (m.unloadAll).1.models.find? (fun j => j.name == nm) with
  | none => rw [hfind1] at hflags; simp at hflags
  | some i1 =>
    rw [hfind1] at hflags
    simp only [Option.map_some', Option.some.injEq, Prod.mk.injEq] at hflags
    have hi1f : i1.inst.loadFailsFlag = true := hflags.2.trans hlf
    have hi1un : i1.inst.isLoaded = false :=
      unloadAll_ok_unloaded m hswp i1 (List.mem_of_find?_eq_some hfind1)
    have hdl : (i1.inst.doLoad).2 = some (.runtimeError "load failed") := by
      unfold Instance.doLoad
      simp [hi1f]
    have hdl1 : (i1.inst.doLoad).1.isLoaded = false := by
      unfold Instance.doLoad
      simp [hi1f, hi1un]
    unfold VRAMManager.ensureLoaded
    rw [hfind]
    simp only [hslow, Bool.false_eq_true, if_false, hswp, hfind1, hdl]
    refine ⟨trivial, unloadAll_ok_current m hinv hswp, ?_⟩
    intro j hj
    obtain ⟨x, hx, rfl⟩ := List.mem_map.mp hj
    have hxun : x.inst.isLoaded = false := unloadAll_ok_unloaded m hswp x hx
    by_cases hn : x.name = nm <;> simp [beq_iff_eq, hn, hdl1, hxun]

theorem ensureLoaded_unload_failure (m : VRAMManager) (nm : String) (i w : ModelInfo)
    (hfind : m.models.find? (fun j => j.name == nm) = some i)
    (hslow : (i.inst.isLoaded && (m.currentLoaded == some nm)) = false)
    (hw : w ∈ m.models) (hwl : w.inst.isLoaded = true)
    (hwf : w.inst.unloadFailsFlag = true) :
    ∃ e, (m.ensureLoaded nm).2 = .error e ∧
      (m.ensureLoaded nm).1.currentLoaded = m.currentLoaded ∧
      lookupLoadCount (m.ensureLoaded nm).1 nm = some i.inst.loadCount := by
  obtain ⟨e, hswp⟩ := unloadAll_err_of_stuck m w hw hwl hwf
  have hcur := (unloadAll_err_state m e hswp).1
  have hflags := unloadAll_find?_flags m nm
  rw [hfind] at hflags
  refine ⟨e, ?_⟩
  unfold VRAMManager.ensureLoaded
  rw [hfind]
  simp only [hslow, Bool.false_eq_true, if_false, hswp]
  refine ⟨trivial, hcur, ?_⟩
  unfold lookupLoadCount
  cases hfind1 : (m.unloadAll).1.models.find? (fun j => j.name == nm) with
  | none => rw [hfind1] at hflags; simp at hflags
  | some i1 =>
    rw [hfind1] at hflags
    simp only [Option.map_some', Option.some.injEq, Prod.mk.injEq] at hflags
    simp [hflags.1]

/-! ### Helper lemmas about `register`'s dict assignment -/

theorem find?_map_replace (l : List ModelInfo) (nm : String) (info : ModelInfo)
    (hinfo : info.name = nm)
    (hany : l.any (fun i => i.name == nm) = true) :
    (l.map (fun i => if i.name == nm then info else i)).find? (fun i => i.name == nm)
      = some info := by
  induction l with
  | nil => simp at hany
  | cons a l ih =>
    by_cases ha : a.name = nm
    · have h1 : (a.name == nm) = true := by simp [beq_iff_eq, ha]
      have h2 : (info.name == nm) = true := by simp [beq_iff_eq, hinfo]
      rw [List.map_cons]
      simp only [h1, if_true]
      rw [List.find?_cons, h2]
    · have h1 : (a.name == nm) = false := by simp [beq_iff_eq, ha]
      have hany' : l.any (fun i => i.name == nm) = true := by
        rw [List.any_cons, h1] at hany
        simpa using hany
      rw [List.map_cons]
      simp only [h1, Bool.false_eq_true, if_false]
      rw [List.find?_cons, h1]
      exact ih hany'

theorem find?_append_single (l : List ModelInfo) (nm : String) (info : ModelInfo)
    (hinfo : info.name = nm)
    (hany : l.any (fun i => i.name == nm) = false) :
    (l ++ [info]).find? (fun i => i.name == nm) = some info := by
  induction l with
  | nil =>
    have h2 : (info.name == nm) = true := by simp [beq_iff_eq, hinfo]
    rw [List.nil_append, List.find?_cons, h2]
  | cons a l ih =>
    rw [List.any_cons] at hany
    cases hq : (a.name == nm) with
    | true => rw [hq] at hany; simp at hany
    | false =>
      rw [hq] at hany
      simp only [Bool.false_or] at hany
      rw [List.cons_append, List.find?_cons, hq]
      exact ih hany

/-! ### The claims -/

/-- C3 counterexample: `acquire_gpu("nonexistent")` on a coordinator whose
busy flag is clear fails with the NotFound `ValueError`, but the busy flag
`_in_use` is `true` afterwards: `acquire_gpu` sets `_in_use = True` before
the registry check, and the `try/finally` that would clear it is never
entered when `_ensure_loaded` raises — so the claim's "does not mark the
busy flag" is false on the code. -/
theorem unknown_model_marks_busy_cex :
    (twoUnitMgr.acquireEnter "nonexistent" 5).2
        = .error (.valueError "Unknown model: nonexistent") ∧
    twoUnitMgr.inUse = false ∧
    (twoUnitMgr.acquireEnter "nonexistent" 5).1.inUse = true :=
  ⟨rfl, rfl, rfl⟩

/-- C3 (amended): for every name not in the registry, `acquire(name)` fails
with the NotFound `ValueError`, releases the gate (the exception propagates
out of the `async with` block), and leaves `resident`, the registry and
every unit's loaded state unchanged; however the busy flag is set to `true`
before the registry check and is still `true` when the failure propagates
(it is only cleared by the next session's exit). -/
theorem unknown_model_notfound (m : VRAMManager) (nm : String) (now : ℚ)
    (h : m.models.find? (fun i => i.name == nm) = none) :
    m.acquireEnter nm now
      = ({ m with inUse := true, lastUsed := now },
         .error (.valueError ("Unknown model: " ++ nm))) := by
  unfold VRAMManager.acquireEnter
  exact ensureLoaded_unknown _ nm h

/-- C3 witness: the amended statement at a concrete coordinator and name. -/
theorem unknown_model_notfound_witness :
    twoUnitMgr.acquireEnter "nonexistent" 5
      = ({ twoUnitMgr with inUse := true, lastUsed := 5 },
         .error (.valueError "Unknown model: nonexistent")) :=
  unknown_model_notfound twoUnitMgr "nonexistent" 5 rfl

/-- C2 counterexample: with resident unit `alpha` whose `unload()` raises
and a well-behaved second unit `beta`, `acquire_gpu("beta")` fails with the
unload error — `_unload_all` has no try/except, so the raising `unload()`
aborts the sweep and the acquire — and `beta` is not loaded afterwards (its
`load()` was never called), while stuck `alpha` stays loaded.  This refutes
both "logs the failure and continues unloading the remaining loaded units"
and "a subsequent `acquire(B)` still succeeds with B reporting
loaded = true". -/
theorem unload_failure_cex :
    (stuckMgr.acquireEnter "beta" 1).2 = .error (.runtimeError "unload failed") ∧
    lookupIsLoaded (stuckMgr.acquireEnter "beta" 1).1 "beta" = some false ∧
    lookupLoadCount (stuckMgr.acquireEnter "beta" 1).1 "beta" = some 0 ∧
    lookupIsLoaded (stuckMgr.acquireEnter "beta" 1).1 "alpha" = some true :=
  ⟨rfl, rfl, rfl, rfl⟩

/-- C2 (amended): for every eviction sweep in which some loaded unit's
`unload()` raises, the exception propagates out of `_unload_all` and aborts
both the sweep and the enclosing acquire: the acquire fails with an error,
`resident` is left unchanged, and the requested unit's `load()` is never
called (its call count is unchanged), so the acquire does not succeed and
the target does not end up loaded. -/
theorem unload_failure_aborts (m : VRAMManager) (nm : String) (now : ℚ) (i w : ModelInfo)
    (hfind : m.models.find? (fun j => j.name == nm) = some i)
    (hslow : (i.inst.isLoaded && (m.currentLoaded == some nm)) = false)
    (hw : w ∈ m.models) (hwl : w.inst.isLoaded = true)
    (hwf : w.inst.unloadFailsFlag = true) :
    ∃ e, (m.acquireEnter nm now).2 = .error e ∧
      (m.acquireEnter nm now).1.currentLoaded = m.currentLoaded ∧
      lookupLoadCount (m.acquireEnter nm now).1 nm = some i.inst.loadCount := by
  unfold VRAMManager.acquireEnter
  exact ensureLoaded_unload_failure _ nm i w hfind hslow hw hwl hwf

/-- C2 witness: the amended statement at the concrete stuck coordinator. -/
theorem unload_failure_aborts_witness :
    ∃ e, (stuckMgr.acquireEnter "beta" 1).2 = .error e ∧
      (stuckMgr.acquireEnter "beta" 1).1.currentLoaded = stuckMgr.currentLoaded ∧
      lookupLoadCount (stuckMgr.acquireEnter "beta" 1).1 "beta" = some 0 :=
  unload_failure_aborts stuckMgr "beta" 1
    { name := "beta", modelType := ModelType.audio, estimatedVramGb := 10, inst := coldUnit }
    { name := "alpha", modelType := ModelType.image, estimatedVramGb := 10, inst := stuckUnit }
    (by decide) (by decide) (by decide) (by decide) (by decide)

/-- C6: Load failure atomicity: if the target unit's `load()` raises during
`acquire(name)` (the acquire is on the eviction path, every unit's
`unload()` is well-behaved, and the residency invariant held before the
call), the coordinator does not set `resident` — it remains `none` after the
preceding eviction sweep cleared it — the failure propagates to the caller
as a hard error with no retry, and every unit is left unloaded, so a
subsequent acquire attempt starts from a no-resident state.  The gate is
released as the exception propagates out of the `async with` block. -/
theorem load_failure_atomicity (m : VRAMManager) (nm : String) (now : ℚ) (i : ModelInfo)
    (hinv : residencyOk m = true)
    (hfind : m.models.find? (fun j => j.name == nm) = some i)
    (hslow : (i.inst.isLoaded && (m.currentLoaded == some nm)) = false)
    (hlf : i.inst.loadFailsFlag = true)
    (hnostuck : ∀ j ∈ m.models, j.inst.unloadFailsFlag = false) :
    (m.acquireEnter nm now).2 = .error (.runtimeError "load failed") ∧
    (m.acquireEnter nm now).1.currentLoaded = none ∧
    (∀ j ∈ (m.acquireEnter nm now).1.models, j.inst.isLoaded = false) := by
  unfold VRAMManager.acquireEnter
  exact ensureLoaded_load_failure _ nm i hinv hfind hslow hlf hnostuck

/-- C6 witness: a coordinator whose only unit has a raising `load()`. -/
theorem load_failure_atomicity_witness :
    (brokenMgr.acquireEnter "alpha" 1).2 = .error (.runtimeError "load failed") ∧
    (brokenMgr.acquireEnter "alpha" 1).1.currentLoaded = none := by
  have h := load_failure_atomicity brokenMgr "alpha" 1
    { name := "alpha", modelType := ModelType.image, estimatedVramGb := 10, inst := brokenUnit }
    (by decide) (by decide) (by decide) (by decide) (by decide)
  exact ⟨h.1, h.2.1⟩

/-- C7: Session-exit frame: for every acquire session that reaches the
yield, on scope exit — whether the caller's body completes normally or
raises — the coordinator sets the busy flag to false, refreshes the
last-active timestamp, propagates any exception raised by the body
unchanged, and does not alter `resident` or any unit's loaded state (the
`models` field is exactly that of the post-load state). -/
theorem session_exit_frame (m : VRAMManager) (nm : String) (now nowEnd : ℚ)
    (bodyErr : Option PyErr) (m1 : VRAMManager) (u : String)
    (h : m.acquireEnter nm now = (m1, .ok u)) :
    (m.acquireRun nm now nowEnd bodyErr).1.inUse = false ∧
    (m.acquireRun nm now nowEnd bodyErr).1.lastUsed = nowEnd ∧
    (m.acquireRun nm now nowEnd bodyErr).1.models = m1.models ∧
    (m.acquireRun nm now nowEnd bodyErr).1.currentLoaded = m1.currentLoaded ∧
    (∀ e, bodyErr = some e → (m.acquireRun nm now nowEnd bodyErr).2 = .error e) ∧
    (bodyErr = none → (m.acquireRun nm now nowEnd bodyErr).2 = .ok u) := by
  unfold VRAMManager.acquireRun
  rw [h]
  cases bodyErr <;> simp [VRAMManager.acquireExit]

/-- C7 witness: a session whose body raises; the busy flag is cleared and
the body's exception is returned unchanged. -/
theorem session_exit_frame_witness :
    (twoUnitMgr.acquireRun "alpha" 1 2 (some (.runtimeError "boom"))).1.inUse = false ∧
    (twoUnitMgr.acquireRun "alpha" 1 2 (some (.runtimeError "boom"))).2
      = .error (.runtimeError "boom") := by
  have h := session_exit_frame twoUnitMgr "alpha" 1 2 (some (.runtimeError "boom"))
    (twoUnitMgr.acquireEnter "alpha" 1).1 "alpha" rfl
  exact ⟨h.1, h.2.2.2.2.1 _ rfl⟩

/-- C8: Busy deferral: at an idle-timer tick where the elapsed time since
last activity reaches or exceeds `idle_timeout` while the busy flag is set,
the idle evictor unloads nothing (the registry is untouched) and resets its
wake-up to a full `idle_timeout` later (also resetting `_last_used` to the
tick time), so eviction can fire only after the session releases and a full
timeout elapses again. -/
theorem busy_deferral (m : VRAMManager) (now : ℚ)
    (htimeout : (m.idleTimeout : ℚ) - (now - m.lastUsed) ≤ 0)
    (hbusy : m.inUse = true) :
    m.idleCheckStep now = ({ m with lastUsed := now }, .deferBusy (m.idleTimeout : ℚ)) ∧
    (m.idleCheckStep now).1.models = m.models := by
  constructor <;> simp [VRAMManager.idleCheckStep, htimeout, hbusy]

/-- C8 witness: timeout 300 s, last activity at 0, tick at 301 with the
busy flag set. -/
theorem busy_deferral_witness :
    ({ VRAMManager.init with inUse := true }).idleCheckStep 301
      = ({ VRAMManager.init with inUse := true, lastUsed := 301 }, .deferBusy 300) :=
  (busy_deferral { VRAMManager.init with inUse := true } 301
    (by norm_num [VRAMManager.init]) rfl).1

/-- C10: `register` never stores a zero memory estimate: when
`estimated_vram_gb` is `None` or `0.0` (both falsy for Python `or`), the
stored `estimated_vram_gb` is the `VRAM_ESTIMATES` entry for the name, or
10.0 GB when the name is not in the table; an explicit 0.0 argument is
silently replaced by the default rather than stored. -/
theorem register_zero_estimate_default (m : VRAMManager) (nm : String) (ty : ModelType)
    (inst : Instance) (est : Option ℚ) (h : est = none ∨ est = some 0) :
    ((m.register nm ty inst est).models.find? (fun i => i.name == nm)).map
        (fun i => i.estimatedVramGb)
      = some ((VRAM_ESTIMATES.lookup nm).getD 10) := by
  have hreg : m.register nm ty inst est =
      (if m.models.any (fun i => i.name == nm) then
        { m with models := m.models.map (fun i =>
            if i.name == nm then
              { name := nm, modelType := ty,
                estimatedVramGb := (VRAM_ESTIMATES.lookup nm).getD 10, inst := inst }
            else i) }
      else
        { m with models := m.models ++
            [{ name := nm, modelType := ty,
               estimatedVramGb := (VRAM_ESTIMATES.lookup nm).getD 10, inst := inst }] }) := by
    rcases h with rfl | rfl <;> simp [VRAMManager.register]
  rw [hreg]
  by_cases hany : m.models.any (fun i => i.name == nm) = true
  · rw [if_pos hany]
    rw [show ({ m with models := m.models.map (fun i =>
        if i.name == nm then
          { name := nm, modelType := ty,
            estimatedVramGb := (VRAM_ESTIMATES.lookup nm).getD 10, inst := inst }
        else i) } : VRAMManager).models = m.models.map (fun i =>
        if i.name == nm then
          { name := nm, modelType := ty,
            estimatedVramGb := (VRAM_ESTIMATES.lookup nm).getD 10, inst := inst }
        else i) from rfl]
    rw [find?_map_replace m.models nm _ rfl hany]
    rfl
  · rw [if_neg hany]
    have hany' : m.models.any (fun i => i.name == nm) = false := by
      cases hq : m.models.any (fun i => i.name == nm)
      · rfl
      · exact absurd hq hany
    rw [show ({ m with models := m.models ++
        [{ name := nm, modelType := ty,
           estimatedVramGb := (VRAM_ESTIMATES.lookup nm).getD 10, inst := inst }] }
        : VRAMManager).models = m.models ++
        [{ name := nm, modelType := ty,
           estimatedVramGb := (VRAM_ESTIMATES.lookup nm).getD 10, inst := inst }] from rfl]
    rw [find?_append_single m.models nm _ rfl hany']
    rfl

/-- C10 witness: registering `xtts-v2` with an explicit 0.0 estimate stores
the table default 2.0 GB. -/
theorem register_zero_estimate_default_witness :
    ((VRAMManager.init.register "xtts-v2" ModelType.audio coldUnit (some 0)).models.find?
        (fun i => i.name == "xtts-v2")).map (fun i => i.estimatedVramGb) = some 2 :=
  register_zero_estimate_default VRAMManager.init "xtts-v2" ModelType.audio coldUnit
    (some 0) (Or.inr rfl)

/-- C1: Single residency: if the residency invariant holds before
`acquire(name)` and the acquire completes its load phase (returns the
unit), the invariant holds at every point until the session exits: at most
one registered unit reports `is_loaded = true`, and since `resident` is set
(to `name`), that unit reports loaded and no other registered unit does.
Nothing between the load phase and the session exit touches `resident` or
any unit (see `session_exit_frame`), so the invariant persists. -/
theorem acquire_single_residency (m : VRAMManager) (nm : String) (now : ℚ)
    (m1 : VRAMManager) (u : String)
    (hinv : residencyOk m = true)
    (h : m.acquireEnter nm now = (m1, .ok u)) :
    residencyOk m1 = true := by
  unfold VRAMManager.acquireEnter at h
  obtain ⟨-, hcur, hex, hnames, hcases⟩ := ensureLoaded_ok_cases _ nm m1 u h
  rcases hcases with ⟨rfl, -⟩ | ⟨hslow, -⟩
  · exact hinv
  · obtain ⟨i0, hfind0⟩ := hex
    have hname0 := List.find?_some hfind0
    have hmem0 := List.mem_of_find?_eq_some hfind0
    have hnm1 : nm ∈ m1.models.map (fun i => i.name) := by
      rw [hnames]
      exact List.mem_map.mpr ⟨i0, hmem0, by simpa [beq_iff_eq] using hname0⟩
    obtain ⟨iT, hiTfind, hiTname⟩ := find?_name_of_mem m1.models nm hnm1
    have hiTmem := List.mem_of_find?_eq_some hiTfind
    have hiTloaded : iT.inst.isLoaded = true := by
      rw [hslow iT hiTmem]
      simp [beq_iff_eq, hiTname]
    unfold residencyOk
    rw [hcur]
    simp only [Bool.and_eq_true, List.all_eq_true, List.any_eq_true,
      Bool.or_eq_true, Bool.not_eq_true']
    refine ⟨fun i hi => fun j hj => ?_, ⟨iT, hiTmem, ?_⟩, fun j hj => ?_⟩
    · by_cases hi' : i.inst.isLoaded = true
      · by_cases hj' : j.inst.isLoaded = true
        · right
          have hni : i.name = nm := by
            have hx := hslow i hi
            rw [hi'] at hx
            simpa [beq_iff_eq] using hx.symm
          have hnj : j.name = nm := by
            have hx := hslow j hj
            rw [hj'] at hx
            simpa [beq_iff_eq] using hx.symm
          simp [beq_iff_eq, hni, hnj]
        · left; right
          exact Bool.eq_false_iff.mpr hj'
      · left; left
        exact Bool.eq_false_iff.mpr hi'
    · simp [beq_iff_eq, hiTname, hiTloaded]
    · by_cases hj' : j.inst.isLoaded = true
      · right
        have hx := hslow j hj
        rw [hj'] at hx
        exact hx.symm
      · left
        exact Bool.eq_false_iff.mpr hj'

/-- C1 witness: loading `alpha` into a fresh two-unit coordinator. -/
theorem acquire_single_residency_witness :
    residencyOk (twoUnitMgr.acquireEnter "alpha" 1).1 = true :=
  acquire_single_residency twoUnitMgr "alpha" 1
    (twoUnitMgr.acquireEnter "alpha" 1).1 "alpha" rfl rfl

/-- C4: Switch correctness: for registered units A ≠ B, a completed
`acquire(A)` session followed by an `acquire(B)` that completes its load
phase leaves A reporting `is_loaded = false` and B reporting
`is_loaded = true` before the second acquire yields its unit. -/
theorem switch_correctness (m : VRAMManager) (A B : String) (now1 t now2 : ℚ)
    (hAB : A ≠ B) (m1 m3 : VRAMManager) (u1 u3 : String)
    (h1 : m.acquireEnter A now1 = (m1, .ok u1))
    (h2 : (m1.acquireExit t).acquireEnter B now2 = (m3, .ok u3)) :
    lookupIsLoaded m3 A = some false ∧ lookupIsLoaded m3 B = some true := by
  unfold VRAMManager.acquireEnter at h1 h2
  obtain ⟨-, hcur1, hex1, hnames1, -⟩ := ensureLoaded_ok_cases _ A m1 u1 h1
  obtain ⟨-, hcur3, hex3, hnames3, hcases3⟩ := ensureLoaded_ok_cases _ B m3 u3 h2
  rcases hcases3 with ⟨-, i, -, -, hc⟩ | ⟨hslow, -⟩
  · exfalso
    have hc' : m1.currentLoaded = some B := hc
    rw [hcur1] at hc'
    injection hc' with hAB'
    exact hAB hAB'
  · constructor
    · have hAin : A ∈ m3.models.map (fun i => i.name) := by
        rw [hnames3]
        show A ∈ m1.models.map (fun i => i.name)
        rw [hnames1]
        show A ∈ m.models.map (fun i => i.name)
        obtain ⟨iA0, hfA0⟩ := hex1
        have h' := List.find?_some hfA0
        exact List.mem_map.mpr
          ⟨iA0, List.mem_of_find?_eq_some hfA0, by simpa [beq_iff_eq] using h'⟩
      obtain ⟨iA, hfA, hAname⟩ := find?_name_of_mem m3.models A hAin
      have hAmem := List.mem_of_find?_eq_some hfA
      have hAl := hslow iA hAmem
      unfold lookupIsLoaded
      rw [hfA]
      rw [Option.map_some', hAl, hAname]
      simp [beq_iff_eq, hAB]
    · have hBin : B ∈ m3.models.map (fun i => i.name) := by
        rw [hnames3]
        obtain ⟨iB0, hfB0⟩ := hex3
        have h' := List.find?_some hfB0
        exact List.mem_map.mpr
          ⟨iB0, List.mem_of_find?_eq_some hfB0, by simpa [beq_iff_eq] using h'⟩
      obtain ⟨iB, hfB, hBname⟩ := find?_name_of_mem m3.models B hBin
      have hBmem := List.mem_of_find?_eq_some hfB
      have hBl : iB.inst.isLoaded = true := by
        rw [hslow iB hBmem]
        simp [beq_iff_eq, hBname]
      unfold lookupIsLoaded
      rw [hfB]
      rw [Option.map_some', hBl]

/-- C4 witness: `acquire("alpha")`, release, then `acquire("beta")` on the
fresh two-unit coordinator. -/
theorem switch_correctness_witness :
    lookupIsLoaded
        ((((twoUnitMgr.acquireEnter "alpha" 1).1.acquireExit 2).acquireEnter "beta" 3).1)
        "alpha" = some false ∧
    lookupIsLoaded
        ((((twoUnitMgr.acquireEnter "alpha" 1).1.acquireExit 2).acquireEnter "beta" 3).1)
        "beta" = some true :=
  switch_correctness twoUnitMgr "alpha" "beta" 1 2 3 (by decide)
    (twoUnitMgr.acquireEnter "alpha" 1).1
    ((((twoUnitMgr.acquireEnter "alpha" 1).1.acquireExit 2).acquireEnter "beta" 3).1)
    "alpha" "beta" rfl rfl

/-- C5: Idempotent acquire: starting from a state in which A is registered,
cold (not loaded) and never yet loaded, a successful `acquire(A)` calls A's
`load()` exactly once (its call count in the post-load state is 1), and a
second `acquire(A)` immediately after the first session ends (no
intervening acquire or eviction) takes the already-resident fast path: its
result state differs from the first session's only in the busy flag and
timestamp — the registry is untouched, so the eviction sweep is skipped and
`load()` is not called again. -/
theorem idempotent_acquire (m : VRAMManager) (A : String) (now1 t now2 : ℚ)
    (i0 : ModelInfo)
    (hfind0 : m.models.find? (fun j => j.name == A) = some i0)
    (hcold : i0.inst.isLoaded = false) (hcount0 : i0.inst.loadCount = 0)
    (m1 : VRAMManager) (u1 : String)
    (h1 : m.acquireEnter A now1 = (m1, .ok u1)) :
    (m1.acquireExit t).acquireEnter A now2
      = ({ m1 with inUse := true, lastUsed := now2 }, .ok A) ∧
    lookupLoadCount m1 A = some 1 := by
  unfold VRAMManager.acquireEnter at h1
  obtain ⟨-, hcur1, -, hnames1, hcases⟩ := ensureLoaded_ok_cases _ A m1 u1 h1
  rcases hcases with ⟨-, i, hfind', hl, -⟩ | ⟨hslow, hcount⟩
  · exfalso
    have hfind'' : m.models.find? (fun j => j.name == A) = some i := hfind'
    rw [hfind0] at hfind''
    injection hfind'' with h'
    rw [← h'] at hl
    rw [hcold] at hl
    simp at hl
  · have hcount' : lookupLoadCount m1 A = some 1 := by
      have hl0 : lookupLoadCount { m with inUse := true, lastUsed := now1 } A = some 0 := by
        unfold lookupLoadCount
        rw [show ({ m with inUse := true, lastUsed := now1 } : VRAMManager).models
            = m.models from rfl]
        rw [hfind0]
        simp [hcount0]
      rw [hcount, hl0]
      rfl
    have hAin : A ∈ m1.models.map (fun j => j.name) := by
      rw [hnames1]
      exact List.mem_map.mpr
        ⟨i0, List.mem_of_find?_eq_some hfind0,
         by simpa [beq_iff_eq] using List.find?_some hfind0⟩
    obtain ⟨iT, hfT, hTname⟩ := find?_name_of_mem m1.models A hAin
    have hTl : iT.inst.isLoaded = true := by
      rw [hslow iT (List.mem_of_find?_eq_some hfT)]
      simp [beq_iff_eq, hTname]
    refine ⟨?_, hcount'⟩
    unfold VRAMManager.acquireEnter
    exact ensureLoaded_fast _ A iT hfT hTl hcur1

/-- C5 witness: two back-to-back acquires of `alpha` on the fresh two-unit
coordinator; the load count after the first (and hence second) is 1. -/
theorem idempotent_acquire_witness :
    ((twoUnitMgr.acquireEnter "alpha" 1).1.acquireExit 2).acquireEnter "alpha" 3
      = ({ (twoUnitMgr.acquireEnter "alpha" 1).1 with inUse := true, lastUsed := 3 },
         .ok "alpha") ∧
    lookupLoadCount (twoUnitMgr.acquireEnter "alpha" 1).1 "alpha" = some 1 :=
  idempotent_acquire twoUnitMgr "alpha" 1 2 3
    { name := "alpha", modelType := ModelType.image, estimatedVramGb := 10, inst := coldUnit }
    (by decide) rfl rfl (twoUnitMgr.acquireEnter "alpha" 1).1 "alpha" rfl

/-- Helper: each gate transition preserves the `busyHoldsGate` invariant. -/
theorem gateStep_preserves_busyHoldsGate {n : Nat} (s t : GateSys n)
    (hs : busyHoldsGate s) (hst : GateStep s t) : busyHoldsGate t := by
  cases hst with
  | takeGate i hfree hw =>
    intro j hj
    have hj' : (if j = i then Phase.busy else s.phase j) = Phase.busy := hj
    by_cases hji : j = i
    · show some i = some j
      rw [hji]
    · rw [if_neg hji] at hj'
      have hhold := hs j hj'
      rw [hfree] at hhold
      cases hhold
  | releaseGate i hold =>
    intro j hj
    have hj' : (if j = i then Phase.finished else s.phase j) = Phase.busy := hj
    by_cases hji : j = i
    · rw [if_pos hji] at hj'
      cases hj'
    · rw [if_neg hji] at hj'
      have hhold := hs j hj'
      rw [hold] at hhold
      injection hhold with h'
      exact absurd h'.symm hji

/-- C9: Mutual exclusion: in every state reachable by any interleaving of
gate transitions — i.e. for every sequence of concurrent `acquire` calls —
no two logical sessions are simultaneously in the Busy phase.  Everything
that touches device memory in `acquire_gpu` (eviction sweep, load, the
yielded session) runs between `takeGate` and `releaseGate` of the single
`asyncio.Lock`, which admits exactly one holder at a time. -/
theorem gate_mutual_exclusion {n : Nat} (s : GateSys n) (hr : GateReachable s)
    (i j : Fin n) (hi : s.phase i = Phase.busy) (hj : s.phase j = Phase.busy) :
    i = j := by
  have hinv : busyHoldsGate s := by
    clear hi hj
    induction hr with
    | start =>
      intro k hk
      simp [GateSys.start] at hk
    | step hr' hst ih => exact gateStep_preserves_busyHoldsGate _ _ ih hst
  have h1 := hinv i hi
  have h2 := hinv j hj
  rw [h1] at h2
  injection h2

/-- C9 witness: after session 0 of two takes the gate, any two busy
sessions coincide (both are session 0). -/
theorem gate_mutual_exclusion_witness : (0 : Fin 2) = 0 :=
  gate_mutual_exclusion gateDemo
    (GateReachable.step GateReachable.start
      (GateStep.takeGate (GateSys.start 2) 0 rfl rfl))
    0 0 (by simp [gateDemo, GateSys.start]) (by simp [gateDemo, GateSys.start])

end SillyMedia
